import Mathlib

/-!
Verification of the kismet event bus (`src/eventbus.cc`), the datasource
tracker (`Datasourcetracker` header) and the framed key/value capture
protocol, against the repository specification.

The event bus is embedded shallowly from `src/eventbus.cc`:

* `std::map<std::string, std::vector<std::shared_ptr<callback_listener>>>`
  (the per-channel table `callback_table`) becomes an association list
  `List (String × List callback_listener)`; `std::map` iteration order never
  matters here (the dispatcher and the registration path only use `find` /
  `operator[]` / `push_back`).
* `std::map<unsigned long, std::shared_ptr<callback_listener>>`
  (`callback_id_table`) becomes `List (Nat × callback_listener)`.
* Handler callables (`cb_func`) are opaque to the bus; a handler is modelled
  by a `Nat` token, and "invoking" a handler records the pair
  (listener, event) in the dispatch trace.  A handler behaviour function
  `beh : Nat → eventbus_event → Option String` says whether a given handler
  throws (`some msg`) or returns normally (`none`) on a given event; the
  dispatcher of `eventbus.cc` calls `cbl->cb(e)` with no try/catch, which the
  model mirrors by aborting the remaining calls when `beh` yields `some`.
-/

namespace Kismet

/-- An event on the bus.  `eventbus_event` is constructed in
`event_bus::get_eventbus_event` as `eventbus_event(eventbus_event_id, event_type)`:
`event_id` is the tracked-element field id passed as first argument, and
`event_type` is the human channel name.  The payload content attached by a
producer is opaque; it is modelled as a `Nat`. -/
structure eventbus_event where
  event_id : Nat
  event_type : String
  payload : Nat
deriving DecidableEq

/-- Modelled from the spec: `eventbus.h` (the accessor used at
`eventbus.cc:69`, `e->get_event_id()`) is not part of the provided sources.
The dispatcher keys the string-indexed `callback_table` with it, and the spec
says the worker looks up "subscribers for the event's channel"; so the
accessor returns the event's channel (type) string. -/
def eventbus_event.get_event_chan (e : eventbus_event) : String := e.event_type

/-- One subscription record (`struct callback_listener` of `eventbus.h`):
the channels it subscribed with, the opaque handler, and the id handed out
at registration. -/
structure callback_listener where
  id : Nat
  channels : List String
  cb : Nat
deriving DecidableEq

/-- Modelled from the spec: the entry tracker (`entrytracker.h` is not in the
provided sources).  `register_field` lazily assigns an integer id to a field
name: the existing id when the name is already registered, a fresh one
otherwise. -/
structure entry_tracker where
  next_field_id : Nat
  fields : List (String × Nat)
deriving DecidableEq

def entry_tracker.register_field (et : entry_tracker) (name : String) :
    Nat × entry_tracker :=
  match et.fields.lookup name with
  | some i => (i, et)
  | none =>
      (et.next_field_id,
        ⟨et.next_field_id + 1, et.fields ++ [(name, et.next_field_id)]⟩)

/-- The event bus state (`class event_bus`): the id counter `next_cbl_id`,
the tracked-field id `eventbus_event_id` registered in the constructor, the
per-channel subscription table and the per-id subscription table. -/
structure event_bus where
  next_cbl_id : Nat
  eventbus_event_id : Nat
  callback_table : List (String × List callback_listener)
  callback_id_table : List (Nat × callback_listener)
deriving DecidableEq

/-- `callback_table[channel].push_back(cbl)`: append `cbl` to the channel's
vector, creating the entry when absent. -/
def table_push (t : List (String × List callback_listener)) (c : String)
    (cbl : callback_listener) : List (String × List callback_listener) :=
  match t with
  | [] => [(c, [cbl])]
  | (k, l) :: rest =>
      if k = c then (k, l ++ [cbl]) :: rest else (k, l) :: table_push rest c cbl

/-- `callback_table.find(c)` seen through the channel's vector: the vector
when the channel is present, `[]` when `find` returns `end()` (the dispatcher
treats the two identically: no handler runs). -/
def table_find (t : List (String × List callback_listener)) (c : String) :
    List callback_listener :=
  match t with
  | [] => []
  | (k, l) :: rest => if k = c then l else table_find rest c

/-- `callback_table[c]` used as an rvalue: `operator[]` default-constructs an
empty vector for an absent key.  Used by `remove_listener`, where the result
is then copied. -/
def table_default_insert (t : List (String × List callback_listener))
    (c : String) : List (String × List callback_listener) :=
  match t with
  | [] => [(c, [])]
  | (k, l) :: rest =>
      if k = c then (k, l) :: rest else (k, l) :: table_default_insert rest c

/-- `callback_id_table.find(id)`. -/
def idtable_find (t : List (Nat × callback_listener)) (i : Nat) :
    Option callback_listener :=
  match t with
  | [] => none
  | (k, v) :: rest => if k = i then some v else idtable_find rest i

/-- `callback_id_table[id] = cbl`: overwrite when present, append otherwise. -/
def idtable_set (t : List (Nat × callback_listener)) (i : Nat)
    (cbl : callback_listener) : List (Nat × callback_listener) :=
  match t with
  | [] => [(i, cbl)]
  | (k, v) :: rest =>
      if k = i then (k, cbl) :: rest else (k, v) :: idtable_set rest i cbl

/-- `callback_id_table.erase(it)` for the iterator found at `id`. -/
def idtable_erase (t : List (Nat × callback_listener)) (i : Nat) :
    List (Nat × callback_listener) :=
  match t with
  | [] => []
  | (k, v) :: rest => if k = i then rest else (k, v) :: idtable_erase rest i

/-- Erase the first element with a matching id from a listener vector (the
inner loop of `remove_listener`, which breaks after the first erase). -/
def erase_first_id (l : List callback_listener) (i : Nat) :
    List callback_listener :=
  match l with
  | [] => []
  | cbl :: rest => if cbl.id = i then rest else cbl :: erase_first_id rest i

/-- `event_bus::event_bus()` (eventbus.cc:21): `next_cbl_id = 1`, and
`eventbus_event_id` is obtained once by registering the fixed field name
`"kismet.eventbus.event"` with the entry tracker. -/
def event_bus.init (et : entry_tracker) : event_bus × entry_tracker :=
  let r := et.register_field "kismet.eventbus.event"
  (⟨1, r.1, [], []⟩, r.2)

/-- `event_bus::get_eventbus_event(event_type)` (eventbus.cc:51): a fresh
event shell carrying the bus's single `eventbus_event_id` and the type
string. -/
def event_bus.get_eventbus_event (bus : event_bus) (event_type : String) :
    eventbus_event :=
  ⟨bus.eventbus_event_id, event_type, 0⟩

/-- `event_bus::register_listener(const std::string&, cb_func)`
(eventbus.cc:113): build a `callback_listener` on the single channel with id
`next_cbl_id++`, push it into that channel's table entry and into the id
table, and return the id. -/
def event_bus.register_listener (bus : event_bus) (channel : String)
    (cb : Nat) : Nat × event_bus :=
  let cbl : callback_listener := ⟨bus.next_cbl_id, [channel], cb⟩
  (cbl.id,
    { bus with
      next_cbl_id := bus.next_cbl_id + 1
      callback_table := table_push bus.callback_table channel cbl
      callback_id_table := idtable_set bus.callback_id_table cbl.id cbl })

/-- `event_bus::register_listener(const std::list<std::string>&, cb_func)`
(eventbus.cc:124): build a `callback_listener` on the channel list with id
`next_cbl_id++`, push it into the table entry of each listed channel (once
per occurrence), record it in the id table, and return the id. -/
def event_bus.register_listener_list (bus : event_bus)
    (channels : List String) (cb : Nat) : Nat × event_bus :=
  let cbl : callback_listener := ⟨bus.next_cbl_id, channels, cb⟩
  (cbl.id,
    { bus with
      next_cbl_id := bus.next_cbl_id + 1
      callback_table :=
        channels.foldl (fun t c => table_push t c cbl) bus.callback_table
      callback_id_table := idtable_set bus.callback_id_table cbl.id cbl })

/-- `event_bus::remove_listener(id)` (eventbus.cc:138).  When the id is
unknown the call is a no-op.  Otherwise, for each channel of the listener the
source does `auto cb_list = callback_table[c];` — `auto` binds cb_list to a
BY-VALUE COPY of the channel's vector, so the erase in the inner loop
mutates only that copy; the only effect on `callback_table` itself is
`operator[]`'s default-insertion of an empty vector for channels not yet in
the table.  The model makes the copied erase explicit and discards it, as
the source does.  Finally the entry is erased from `callback_id_table`. -/
def event_bus.remove_listener (bus : event_bus) (i : Nat) : event_bus :=
  match idtable_find bus.callback_id_table i with
  | none => bus
  | some cbl =>
      let table := cbl.channels.foldl
        (fun t c =>
          let cb_list := table_find (table_default_insert t c) c
          let _erased_copy := erase_first_id cb_list i
          table_default_insert t c)
        bus.callback_table
      { bus with
        callback_table := table
        callback_id_table := idtable_erase bus.callback_id_table i }

/-- Run one vector of listeners against an event, `cbl->cb(e)` in order
(eventbus.cc:85, :91).  `beh` tells whether a handler throws.  The calls are
not protected by any try/catch in the source, so a throw ends the loop: the
result records the invocations actually performed and the escaping
exception, if any. -/
def run_handlers (beh : Nat → eventbus_event → Option String) :
    List callback_listener → eventbus_event →
      List (callback_listener × eventbus_event) × Option String
  | [], _ => ([], none)
  | cbl :: rest, e =>
      match beh cbl.cb e with
      | some msg => ([(cbl, e)], some msg)
      | none =>
          let r := run_handlers beh rest e
          ((cbl, e) :: r.1, r.2)

/-- One iteration of `event_bus::event_queue_dispatcher` (eventbus.cc:65) for
one popped event: find the listeners for the event's channel and for `"*"`
(when both `find`s miss, no handler runs), then invoke the channel listeners
followed by the `"*"` listeners.  An exception escaping a handler propagates
out of the loop (there is no try/catch), so the `"*"` vector is not reached
when a channel handler throws. -/
def dispatch_event (beh : Nat → eventbus_event → Option String)
    (bus : event_bus) (e : eventbus_event) :
    List (callback_listener × eventbus_event) × Option String :=
  let ch_listeners := table_find bus.callback_table e.get_event_chan
  let ch_all_listeners := table_find bus.callback_table "*"
  let r1 := run_handlers beh ch_listeners e
  match r1.2 with
  | some msg => (r1.1, some msg)
  | none =>
      let r2 := run_handlers beh ch_all_listeners e
      (r1.1 ++ r2.1, r2.2)

/-- Handler behaviour with no throwing handler: every `cbl->cb(e)` returns. -/
def beh_total : Nat → eventbus_event → Option String := fun _ _ => none

/-- Number of times the handler of subscription `i` is invoked in a dispatch
trace. -/
def count_invocations (l : List (callback_listener × eventbus_event))
    (i : Nat) : Nat :=
  (l.filter (fun p => p.1.id = i)).length

/-- A concrete bus as built by the constructor from a fresh entry tracker. -/
def bus0 : event_bus := (event_bus.init ⟨1, []⟩).1

/-- Well-formedness of a bus state: every subscription recorded in the
channel table or the id table was handed an id below the counter.  Holds for
the freshly constructed bus and is preserved by every operation; it is what
makes `next_cbl_id` fresh. -/
def wf (bus : event_bus) : Prop :=
  (∀ p ∈ bus.callback_table, ∀ cbl ∈ p.2, cbl.id < bus.next_cbl_id) ∧
  (∀ q ∈ bus.callback_id_table, q.1 < bus.next_cbl_id)

/-- Handler behaviour in which the handler with token 1 throws and every
other handler returns normally. -/
def beh_throws1 : Nat → eventbus_event → Option String :=
  fun cb _ => if cb = 1 then some "boom" else none

/-- An externally driven bus operation: either registration overload, or a
removal. -/
inductive bus_op
  | reg (channel : String) (cb : Nat)
  | reg_list (channels : List String) (cb : Nat)
  | remove (i : Nat)

/-- Apply one operation; registrations also return the id they hand out. -/
def apply_op (bus : event_bus) : bus_op → event_bus × Option Nat
  | .reg c cb =>
      let r := bus.register_listener c cb
      (r.2, some r.1)
  | .reg_list cs cb =>
      let r := bus.register_listener_list cs cb
      (r.2, some r.1)
  | .remove i => (bus.remove_listener i, none)

/-- Run a sequence of operations, collecting the ids handed out by the
registrations, in order. -/
def run_ops (bus : event_bus) : List bus_op → event_bus × List Nat
  | [] => (bus, [])
  | op :: rest =>
      let r := apply_op bus op
      let r2 := run_ops r.1 rest
      (r2.1, (match r.2 with | some i => [i] | none => []) ++ r2.2)

/-- Number of registration operations in a sequence. -/
def num_regs : List bus_op → Nat
  | [] => 0
  | .reg _ _ :: rest => num_regs rest + 1
  | .reg_list _ _ :: rest => num_regs rest + 1
  | .remove _ :: rest => num_regs rest

/-- Fold a sequence of (channel list, handler) registrations over a bus. -/
def fold_regs (bus : event_bus) (regs : List (List String × Nat)) : event_bus :=
  regs.foldl (fun b r => (b.register_listener_list r.1 r.2).2) bus

/-- The subscribers a channel's table entry holds after registering `regs`
(ids counted from `n`): each registration contributes one copy of its record
per occurrence of the channel in its channel list, in registration order. -/
def expected_listeners (n : Nat) :
    List (List String × Nat) → String → List callback_listener
  | [], _ => []
  | r :: rest, c =>
      List.replicate (r.1.count c) ⟨n, r.1, r.2⟩
        ++ expected_listeners (n + 1) rest c

/-!
Probe coordinator (`DST_DataSourceProbe`).  Only the class declaration is in
the provided sources (the datasource tracker header); the member bodies are
modelled from the spec, section 4.3.  The completion callback passed to
`probe_sources` is opaque; the model records each invocation of it in
`completions` (`true` when called with a winning builder, `false` when called
with none, i.e. no driver / timeout / cancelled).  The member `cancelled` is
the resolved flag: it is set by every terminal transition (winner chosen, all
rejected, deadline, external cancel).
-/

/-- Modelled from the spec: the state of a `DST_DataSourceProbe` coordinator
(declaration at `src/unnamed/part_000`, bodies missing): the transactions of
IPC probe attempts still pending (`probe_vec`), the resolved/cancelled flag,
and the trace of completion-callback invocations. -/
structure DST_DataSourceProbe where
  probe_vec : List Nat
  cancelled : Bool
  completions : List Bool
deriving DecidableEq

/-- Modelled from the spec: `DST_DataSourceProbe::complete_probe(in_success,
in_transaction)`.  Calls after the coordinator has resolved are dropped.  An
affirmative reply wins: remaining attempts are cancelled and completion is
invoked with the winner.  A rejection removes the attempt; when the last
attempt rejects, completion is invoked with no driver. -/
def DST_DataSourceProbe.complete_probe (p : DST_DataSourceProbe)
    (in_success : Bool) (in_transaction : Nat) : DST_DataSourceProbe :=
  if p.cancelled then p
  else if in_success then
    ⟨[], true, p.completions ++ [true]⟩
  else
    let pv := p.probe_vec.erase in_transaction
    if pv.isEmpty then ⟨[], true, p.completions ++ [false]⟩
    else ⟨pv, p.cancelled, p.completions⟩

/-- Modelled from the spec: `DST_DataSourceProbe::cancel` — also the body of
the deadline-timer callback, which behaves as a cancel with reason timeout.
A no-op once resolved; otherwise every pending attempt is abandoned and
completion is invoked with no driver. -/
def DST_DataSourceProbe.cancel (p : DST_DataSourceProbe) :
    DST_DataSourceProbe :=
  if p.cancelled then p else ⟨[], true, p.completions ++ [false]⟩

/-- An external stimulus hitting the coordinator: a `PROBE_RESP` reply frame
for a transaction, the 5 s deadline timer, or an external cancellation. -/
inductive probe_event
  | probe_reply (trans : Nat) (success : Bool)
  | timer_expire
  | cancel_request
deriving DecidableEq

/-- Modelled from the spec: dispatch of one stimulus.  A reply is looked up
by transaction and handed to `complete_probe`; unknown transactions are
dropped.  Timer expiry and external cancel resolve via `cancel`. -/
def probe_step (p : DST_DataSourceProbe) : probe_event → DST_DataSourceProbe
  | .probe_reply t s => if t ∈ p.probe_vec then p.complete_probe s t else p
  | .timer_expire => p.cancel
  | .cancel_request => p.cancel

/-- Process a sequence of stimuli in arrival order (the coordinator-local
lock serializes them). -/
def probe_run (p : DST_DataSourceProbe) (evs : List probe_event) :
    DST_DataSourceProbe :=
  evs.foldl probe_step p

/-- Modelled from the spec: the coordinator as `probe_sources` leaves it:
the spawned IPC attempts pending, unresolved, completion not yet invoked. -/
def probe_init (pv : List Nat) : DST_DataSourceProbe := ⟨pv, false, []⟩

/-!
Datasource tracker (`Datasourcetracker`).  Only the class declaration is in
the provided sources; `open_datasource` and the retry timer are modelled from
the spec (section 4.5) and from the header's own comment: "Opening the source
may result in an error, but as the source is actually assigned, it will
remain in the source list...  Devices which encounter errors are placed in
the error vector and periodically re-tried".
-/

/-- Source lifecycle states. -/
inductive source_state
  | probing
  | opening
  | running
  | error
  | closed
deriving DecidableEq

/-- The tracker-visible record of one instantiated source: runtime id,
driver (builder), definition string, state and last error. -/
structure KisDataSourceRec where
  source_id : Nat
  builder : Nat
  source_definition : String
  state : source_state
  last_error : String
deriving DecidableEq

/-- Modelled from the spec: the `Datasourcetracker` state — the runtime-id
counter, the active source list (`datasource_vec`), the runtime ids of
sources in error state (`error_vec`), and the trace of completion-callback
invocations `(success, message)`. -/
structure Datasourcetracker where
  next_source_id : Nat
  datasource_vec : List KisDataSourceRec
  error_vec : List Nat
  completions : List (Bool × String)
deriving DecidableEq

/-- Modelled from the spec: `Datasourcetracker::open_datasource(in_source,
in_proto, in_cb)` once a driver is determined: instantiate the source from
the builder, assign the next runtime id, store it in the active set, then
attempt the open.  The open runs against a child process, so its outcome is
an input here.  On success the source is `running`; on failure the source
STAYS in the active set, moves to `error` and is recorded in `error_vec`.
Either way the completion callback is invoked with the outcome. -/
def Datasourcetracker.open_datasource (dst : Datasourcetracker)
    (in_source : String) (in_proto : Nat) (outcome : Except String Unit) :
    Datasourcetracker :=
  let sid := dst.next_source_id
  match outcome with
  | .ok _ =>
      ⟨sid + 1,
        dst.datasource_vec ++ [⟨sid, in_proto, in_source, .running, ""⟩],
        dst.error_vec,
        dst.completions ++ [(true, "")]⟩
  | .error msg =>
      ⟨sid + 1,
        dst.datasource_vec ++ [⟨sid, in_proto, in_source, .error, msg⟩],
        dst.error_vec ++ [sid],
        dst.completions ++ [(false, msg)]⟩

/-- Modelled from the spec: the periodic retry pass of
`Datasourcetracker::timetracker_event` — scan the active sources that sit in
the error vector and re-attempt each with its stored definition; the result
lists the (runtime id, definition) pairs re-opened in this pass. -/
def Datasourcetracker.timetracker_event (dst : Datasourcetracker) :
    List (Nat × String) :=
  dst.datasource_vec.filterMap
    (fun s =>
      if s.source_id ∈ dst.error_vec then some (s.source_id, s.source_definition)
      else none)

/-!
Frame codec.  `simple_datasource_proto.h` is not in the provided sources
(`kis_datasource.h` only consumes it); the wire format is modelled from the
spec, section 6: magic, type, keyed-object count, payload length, payload of
keyed objects, crc — all multi-byte integers big-endian.  Bytes are `Nat`s;
an encoder output is a valid byte stream when the encoded values fit their
fields, which is what the round-trip hypotheses require.
-/

/-- Frame magic, the spec's example value. -/
def MAGIC : Nat := 0xDEC0DE42

/-- Big-endian 16-bit encoding. -/
def u16be (n : Nat) : List Nat := [n / 256 % 256, n % 256]

/-- Big-endian 32-bit encoding. -/
def u32be (n : Nat) : List Nat :=
  [n / 16777216 % 256, n / 65536 % 256, n / 256 % 256, n % 256]

/-- Read a big-endian 16-bit integer from the head of the stream. -/
def parseU16 : List Nat → Option (Nat × List Nat)
  | b0 :: b1 :: rest => some (b0 * 256 + b1, rest)
  | _ => none

/-- Read a big-endian 32-bit integer from the head of the stream. -/
def parseU32 : List Nat → Option (Nat × List Nat)
  | b0 :: b1 :: b2 :: b3 :: rest =>
      some (((b0 * 256 + b1) * 256 + b2) * 256 + b3, rest)
  | _ => none

/-- Read `n` raw bytes from the head of the stream. -/
def parseBytes (n : Nat) (l : List Nat) : Option (List Nat × List Nat) :=
  if n ≤ l.length then some (l.take n, l.drop n) else none

/-- Modelled from the spec: the crc polynomial is implementation-fixed; the
round-trip contract only needs the checksum to be a fixed function of the
covered bytes with a 32-bit result, so a concrete 32-bit fold stands in for
the polynomial. -/
def cap_crc32 (l : List Nat) : Nat :=
  l.foldl (fun acc b => (acc * 257 + b) % 4294967296) 0

/-- A keyed object of a capture frame (`KisDataSource_CapKeyedObject` of
`src/kis_datasource.h`): key string (as bytes), size, opaque payload bytes. -/
structure CapKeyedObject where
  key : List Nat
  size : Nat
  object : List Nat
deriving DecidableEq

/-- Modelled from the spec: serialize one keyed object —
`key_len u16be, key, obj_size u32be, obj`. -/
def emit_cap_kv (kv : CapKeyedObject) : List Nat :=
  u16be kv.key.length ++ kv.key ++ u32be kv.size ++ kv.object

/-- The frame payload: the keyed objects in order. -/
def cap_payload (kvs : List CapKeyedObject) : List Nat :=
  (kvs.map emit_cap_kv).flatten

/-- The region the crc covers: type through payload. -/
def crc_region (t : List Nat) (nkv plen : Nat) (payload : List Nat) :
    List Nat :=
  t ++ u32be nkv ++ u32be plen ++ payload

/-- Modelled from the spec: serialize a frame — magic, type length and type,
keyed-object count, payload length, payload, crc over type..payload. -/
def emit_frame (t : List Nat) (kvs : List CapKeyedObject) : List Nat :=
  let payload := cap_payload kvs
  u32be MAGIC ++ u16be t.length ++ t ++ u32be kvs.length
    ++ u32be payload.length ++ payload
    ++ u32be (cap_crc32 (crc_region t kvs.length payload.length payload))

/-- Parse one keyed object from the head of the stream. -/
def parse_cap_kv (l : List Nat) : Option (CapKeyedObject × List Nat) :=
  match parseU16 l with
  | none => none
  | some (klen, l1) =>
      match parseBytes klen l1 with
      | none => none
      | some (key, l2) =>
          match parseU32 l2 with
          | none => none
          | some (osize, l3) =>
              match parseBytes osize l3 with
              | none => none
              | some (obj, l4) => some (⟨key, osize, obj⟩, l4)

/-- Parse exactly `n` keyed objects from the head of the stream. -/
def parse_cap_kvs : Nat → List Nat → Option (List CapKeyedObject × List Nat)
  | 0, l => some ([], l)
  | n + 1, l =>
      match parse_cap_kv l with
      | none => none
      | some (kv, l1) =>
          match parse_cap_kvs n l1 with
          | none => none
          | some (kvs, l2) => some (kv :: kvs, l2)

/-- Modelled from the spec: parse one frame from the head of a byte stream,
checking magic and crc and consuming the payload completely; returns the
frame (type, keyed objects) and the unconsumed remainder of the stream. -/
def parse_frame (l : List Nat) :
    Option ((List Nat × List CapKeyedObject) × List Nat) :=
  match parseU32 l with
  | none => none
  | some (magic, l1) =>
      if magic ≠ MAGIC then none
      else
        match parseU16 l1 with
        | none => none
        | some (tlen, l2) =>
            match parseBytes tlen l2 with
            | none => none
            | some (t, l3) =>
                match parseU32 l3 with
                | none => none
                | some (nkv, l4) =>
                    match parseU32 l4 with
                    | none => none
                    | some (plen, l5) =>
                        match parseBytes plen l5 with
                        | none => none
                        | some (payload, l6) =>
                            match parseU32 l6 with
                            | none => none
                            | some (crc, l7) =>
                                if crc ≠ cap_crc32 (crc_region t nkv plen payload) then none
                                else
                                  match parse_cap_kvs nkv payload with
                                  | none => none
                                  | some (kvs, rest) =>
                                      if rest.isEmpty then some ((t, kvs), l7)
                                      else none

/-!
Helper lemmas for the event bus.
-/

theorem run_handlers_total (l : List callback_listener) (e : eventbus_event) :
    run_handlers beh_total l e = (l.map (fun c => (c, e)), none) := by
  induction l with
  | nil => rfl
  | cons c rest ih => simp [run_handlers, beh_total, ih]

theorem dispatch_total (bus : event_bus) (e : eventbus_event) :
    dispatch_event beh_total bus e =
      ((table_find bus.callback_table e.get_event_chan
        ++ table_find bus.callback_table "*").map (fun c => (c, e)), none) := by
  simp [dispatch_event, run_handlers_total]

theorem table_find_push_self (t : List (String × List callback_listener))
    (c : String) (cbl : callback_listener) :
    table_find (table_push t c cbl) c = table_find t c ++ [cbl] := by
  induction t with
  | nil => simp [table_push, table_find]
  | cons p rest ih =>
      obtain ⟨k, l⟩ := p
      by_cases h : k = c <;> simp [table_push, table_find, h, ih]

theorem table_find_push_other (t : List (String × List callback_listener))
    (c d : String) (cbl : callback_listener) (h : d ≠ c) :
    table_find (table_push t c cbl) d = table_find t d := by
  induction t with
  | nil => simp [table_push, table_find, Ne.symm h]
  | cons p rest ih =>
      obtain ⟨k, l⟩ := p
      by_cases hk : k = c
      · subst hk
        simp [table_push, table_find, Ne.symm h]
      · by_cases hd : k = d <;> simp [table_push, table_find, hk, hd, ih, h]

theorem table_find_fold_push (L : List String)
    (t : List (String × List callback_listener)) (cbl : callback_listener)
    (d : String) :
    table_find (L.foldl (fun acc c => table_push acc c cbl) t) d
      = table_find t d ++ List.replicate (L.count d) cbl := by
  induction L generalizing t with
  | nil => simp
  | cons c L ih =>
      rw [List.foldl_cons, ih]
      by_cases h : c = d
      · subst h
        rw [table_find_push_self]
        simp [List.count_cons, List.replicate_succ, List.append_assoc]
      · rw [table_find_push_other _ _ _ _ (Ne.symm h)]
        have : (List.count d (c :: L)) = List.count d L := by
          simp [List.count_cons, h, Ne.symm h]
        simp [List.count_cons, this]

theorem mem_table_find {t : List (String × List callback_listener)}
    {c : String} {cbl : callback_listener} (h : cbl ∈ table_find t c) :
    ∃ p, p ∈ t ∧ cbl ∈ p.2 := by
  induction t with
  | nil => simp [table_find] at h
  | cons p rest ih =>
      obtain ⟨k, l⟩ := p
      by_cases hk : k = c
      · exact ⟨(k, l), by simp, by simpa [table_find, hk] using h⟩
      · obtain ⟨q, hq, hmem⟩ := ih (by simpa [table_find, hk] using h)
        exact ⟨q, by simp [hq], hmem⟩

theorem count_invocations_map (l : List callback_listener)
    (e : eventbus_event) (i : Nat) :
    count_invocations (l.map (fun c => (c, e))) i
      = (l.filter (fun c => c.id = i)).length := by
  induction l with
  | nil => rfl
  | cons c rest ih =>
      by_cases h : c.id = i <;>
        simp [count_invocations, List.filter_cons, h] <;>
        simpa [count_invocations] using ih

theorem filter_id_replicate (n : Nat) (cbl : callback_listener) (i : Nat)
    (h : cbl.id = i) :
    ((List.replicate n cbl).filter (fun c => c.id = i)).length = n := by
  induction n with
  | zero => rfl
  | succ n ih => simp [List.replicate_succ, List.filter_cons, h, ih]

theorem filter_id_nil_of_ne (l : List callback_listener) (i : Nat)
    (h : ∀ c ∈ l, c.id ≠ i) :
    (l.filter (fun c => c.id = i)).length = 0 := by
  rw [List.length_eq_zero]
  exact List.filter_eq_nil_iff.mpr (by intro a ha; simpa using h a ha)

theorem idtable_find_set_self (t : List (Nat × callback_listener)) (i : Nat)
    (cbl : callback_listener) :
    idtable_find (idtable_set t i cbl) i = some cbl := by
  induction t with
  | nil => simp [idtable_set, idtable_find]
  | cons q rest ih =>
      obtain ⟨k, v⟩ := q
      by_cases h : k = i <;> simp [idtable_set, idtable_find, h, ih]

theorem idtable_set_fresh (t : List (Nat × callback_listener)) (i : Nat)
    (cbl : callback_listener) (h : ∀ q ∈ t, q.1 ≠ i) :
    idtable_set t i cbl = t ++ [(i, cbl)] := by
  induction t with
  | nil => simp [idtable_set]
  | cons q rest ih =>
      obtain ⟨k, v⟩ := q
      have hk : k ≠ i := h (k, v) (by simp)
      simp [idtable_set, hk, ih (fun q hq => h q (by simp [hq]))]

theorem idtable_erase_append (t : List (Nat × callback_listener)) (i : Nat)
    (cbl : callback_listener) (h : ∀ q ∈ t, q.1 ≠ i) :
    idtable_erase (t ++ [(i, cbl)]) i = t := by
  induction t with
  | nil => simp [idtable_erase]
  | cons q rest ih =>
      obtain ⟨k, v⟩ := q
      have hk : k ≠ i := h (k, v) (by simp)
      simp [idtable_erase, hk, ih (fun q hq => h q (by simp [hq]))]

theorem idtable_find_none (t : List (Nat × callback_listener)) (i : Nat)
    (h : ∀ q ∈ t, q.1 ≠ i) :
    idtable_find t i = none := by
  induction t with
  | nil => rfl
  | cons q rest ih =>
      obtain ⟨k, v⟩ := q
      have hk : k ≠ i := h (k, v) (by simp)
      simp [idtable_find, hk, ih (fun q hq => h q (by simp [hq]))]

theorem table_find_bus0 (c : String) : table_find bus0.callback_table c = [] := rfl

theorem lookup_append_self {fields : List (String × Nat)} {n : String}
    {v : Nat} (h : fields.lookup n = none) :
    (fields ++ [(n, v)]).lookup n = some v := by
  induction fields with
  | nil => simp [List.lookup]
  | cons q rest ih =>
      obtain ⟨k, w⟩ := q
      by_cases hk : n = k
      · simp [List.lookup, hk] at h
      · have hbk : (n == k) = false := beq_eq_false_iff_ne.mpr hk
        simp only [List.lookup, hbk] at h
        simp only [List.cons_append, List.lookup, hbk]
        exact ih h

theorem register_field_stable (et : entry_tracker) (n : String) :
    ((et.register_field n).2.register_field n).1 = (et.register_field n).1 := by
  cases h : et.fields.lookup n with
  | some i => simp [entry_tracker.register_field, h]
  | none => simp [entry_tracker.register_field, h, lookup_append_self h]

theorem wf_bus0 : wf bus0 := by
  constructor
  · intro p hp
    have h : bus0.callback_table = [] := rfl
    rw [h] at hp
    cases hp
  · intro q hq
    have h : bus0.callback_id_table = [] := rfl
    rw [h] at hq
    cases hq

theorem table_find_fold_regs (regs : List (List String × Nat))
    (bus : event_bus) (c : String) :
    table_find (fold_regs bus regs).callback_table c
      = table_find bus.callback_table c
        ++ expected_listeners bus.next_cbl_id regs c := by
  induction regs generalizing bus with
  | nil => simp [fold_regs, expected_listeners]
  | cons r rest ih =>
      have hstep : fold_regs bus (r :: rest)
          = fold_regs (bus.register_listener_list r.1 r.2).2 rest := rfl
      rw [hstep, ih]
      simp only [event_bus.register_listener_list]
      rw [table_find_fold_push]
      simp [expected_listeners, List.append_assoc]

theorem remove_listener_next (bus : event_bus) (i : Nat) :
    (bus.remove_listener i).next_cbl_id = bus.next_cbl_id := by
  cases h : idtable_find bus.callback_id_table i <;>
    simp [event_bus.remove_listener, h]

theorem run_ops_ids (ops : List bus_op) (bus : event_bus) :
    (run_ops bus ops).2 = List.range' bus.next_cbl_id (num_regs ops) := by
  induction ops generalizing bus with
  | nil => simp [run_ops, num_regs]
  | cons op rest ih =>
      cases op with
      | reg c cb =>
          simp [run_ops, apply_op, num_regs, ih,
            event_bus.register_listener, List.range'_succ]
      | reg_list cs cb =>
          simp [run_ops, apply_op, num_regs, ih,
            event_bus.register_listener_list, List.range'_succ]
      | remove i =>
          simp [run_ops, apply_op, num_regs, ih, remove_listener_next]

/-!
Claims C1 through C6 and C10: the event bus.
-/

/-- C1: the spec says `remove_listener(id)` removes the subscription from all
its channel indices and that no further deliveries reach its handler.  The
code keeps the second half of the removal only: evaluated on the failing
input — register a handler on channel `"x"` (id 1), remove id 1, dispatch an
event on `"x"` — the id index no longer has the subscription, but the
channel index for `"x"` still holds it (the source erases from a by-value
copy of the vector), and the dispatcher still invokes its handler. -/
theorem C1_removed_listener_still_delivered :
    ((bus0.register_listener "x" 77).1 = 1) ∧
    (idtable_find
        ((bus0.register_listener "x" 77).2.remove_listener 1).callback_id_table 1
      = none) ∧
    (table_find
        ((bus0.register_listener "x" 77).2.remove_listener 1).callback_table "x"
      = [⟨1, ["x"], 77⟩]) ∧
    ((dispatch_event beh_total
        ((bus0.register_listener "x" 77).2.remove_listener 1) ⟨0, "x", 7⟩).1
      = [(⟨1, ["x"], 77⟩, ⟨0, "x", 7⟩)]) :=
  ⟨rfl, rfl, rfl, rfl⟩

/-- C2 counterexample: a subscription registered with the channel list
`["x", "*"]` — which covers an event on `"x"` twice — has its handler
invoked twice, not once, when an event on `"x"` is dispatched. -/
theorem C2_duplicate_channel_double_delivery :
    count_invocations
        (dispatch_event beh_total
          (bus0.register_listener_list ["x", "*"] 9).2 ⟨0, "x", 7⟩).1 1 = 2 ∧
    count_invocations
        (dispatch_event beh_total
          (bus0.register_listener_list ["x", "*"] 9).2 ⟨0, "x", 7⟩).1 1 ≠ 1 :=
  ⟨rfl, by decide⟩

/-- C2 (amended): when dispatching one event, the handler of a subscription
registered with channel list `L` is invoked once per occurrence of the
event's channel in `L` plus once per occurrence of `"*"` in `L`; in
particular a subscription whose list covers the event exactly once is
invoked exactly once, and one that covers it more than once is invoked more
than once. -/
theorem C2_delivery_count (bus : event_bus) (hwf : wf bus) (L : List String)
    (cb : Nat) (e : eventbus_event) :
    count_invocations
        (dispatch_event beh_total (bus.register_listener_list L cb).2 e).1
        bus.next_cbl_id
      = L.count e.get_event_chan + L.count "*" := by
  have hzero : ∀ c : String,
      ((table_find bus.callback_table c).filter
        (fun x => x.id = bus.next_cbl_id)).length = 0 := by
    intro c
    apply filter_id_nil_of_ne
    intro x hx
    obtain ⟨p, hp, hxp⟩ := mem_table_find hx
    exact Nat.ne_of_lt (hwf.1 p hp x hxp)
  rw [dispatch_total]
  simp only [event_bus.register_listener_list]
  rw [count_invocations_map, List.filter_append, List.length_append,
    table_find_fold_push, table_find_fold_push, List.filter_append,
    List.filter_append, List.length_append, List.length_append,
    hzero, hzero,
    filter_id_replicate (L.count e.get_event_chan)
      ⟨bus.next_cbl_id, L, cb⟩ bus.next_cbl_id rfl,
    filter_id_replicate (L.count "*")
      ⟨bus.next_cbl_id, L, cb⟩ bus.next_cbl_id rfl]
  omega

/-- C2 witness: the amended count at a concrete input — one subscription on
`["x", "y"]`, an event on `"x"`: one invocation. -/
theorem C2_delivery_count_witness :
    count_invocations
        (dispatch_event beh_total
          (bus0.register_listener_list ["x", "y"] 5).2 ⟨0, "x", 7⟩).1
        bus0.next_cbl_id
      = ["x", "y"].count (eventbus_event.get_event_chan ⟨0, "x", 7⟩)
        + ["x", "y"].count "*" :=
  C2_delivery_count bus0 wf_bus0 ["x", "y"] 5 ⟨0, "x", 7⟩

/-- C3: dispatching one event invokes the listeners found for the event's
channel first, then the listeners found for `"*"`, each set in insertion
(registration) order, each handler receiving the event; instantiated on the
spec's scenario — A and B on `"x"`, C on `"*"`, event (`"x"`, payload 7) —
the invocation order is A, B, C, each with that event. -/
theorem C3_dispatch_order :
    (∀ (regs : List (List String × Nat)) (e : eventbus_event),
        dispatch_event beh_total (fold_regs bus0 regs) e
          = ((expected_listeners 1 regs e.get_event_chan
              ++ expected_listeners 1 regs "*").map (fun c => (c, e)), none)) ∧
    (dispatch_event beh_total
        (((bus0.register_listener "x" 10).2.register_listener
            "x" 20).2.register_listener "*" 30).2 ⟨0, "x", 7⟩
      = ([(⟨1, ["x"], 10⟩, ⟨0, "x", 7⟩), (⟨2, ["x"], 20⟩, ⟨0, "x", 7⟩),
          (⟨3, ["*"], 30⟩, ⟨0, "x", 7⟩)], none)) := by
  constructor
  · intro regs e
    rw [dispatch_total, table_find_fold_regs, table_find_fold_regs,
      table_find_bus0, table_find_bus0]
    rfl
  · rfl

/-- C4: over any sequence of operations on a fresh bus (both registration
overloads and removals, interleaved), the ids handed out by the
registrations are exactly 1, 2, 3, …: at least 1, strictly increasing in
registration order, and never reused. -/
theorem C4_ids_unique_increasing :
    ∀ ops : List bus_op,
      (run_ops bus0 ops).2 = List.range' 1 (num_regs ops) ∧
      List.Chain' (· < ·) (run_ops bus0 ops).2 ∧
      (∀ i ∈ (run_ops bus0 ops).2, 1 ≤ i) ∧
      (run_ops bus0 ops).2.Nodup := by
  intro ops
  have h : (run_ops bus0 ops).2 = List.range' 1 (num_regs ops) :=
    run_ops_ids ops bus0
  refine ⟨h, ?_, ?_, ?_⟩
  · rw [h]
    exact (List.pairwise_lt_range' 1 _ 1 (by decide)).chain'
  · rw [h]
    intro i hi
    exact (List.mem_range'_1.mp hi).1
  · rw [h]
    exact List.nodup_range' 1 _

/-- C5 counterexample: two `get_eventbus_event` calls with distinct type
names (`"a"` and `"b"`) yield events with the SAME event id, refuting the
claim that distinct type names yield distinct event ids. -/
theorem C5_distinct_types_same_id :
    ("a" : String) ≠ "b" ∧
    (bus0.get_eventbus_event "a").event_id
      = (bus0.get_eventbus_event "b").event_id :=
  ⟨by decide, rfl⟩

/-- C5 (amended): `get_eventbus_event(type)` returns a new event carrying
the type string and the bus's single `eventbus_event_id` — the integer id
the entry tracker lazily associates with the fixed field name
`"kismet.eventbus.event"` at bus construction (re-registering that name
yields the same id).  Events of the same type share it, and events of
distinct types share it too. -/
theorem C5_event_id_is_shared_field_id (et : entry_tracker) (t u : String) :
    ((event_bus.init et).1.get_eventbus_event t).event_id
      = (et.register_field "kismet.eventbus.event").1 ∧
    ((event_bus.init et).1.get_eventbus_event t).event_id
      = ((event_bus.init et).1.get_eventbus_event u).event_id ∧
    ((event_bus.init et).1.get_eventbus_event t).event_type = t ∧
    ((et.register_field "kismet.eventbus.event").2.register_field
        "kismet.eventbus.event").1
      = (et.register_field "kismet.eventbus.event").1 :=
  ⟨rfl, rfl, rfl, register_field_stable et "kismet.eventbus.event"⟩

theorem run_handlers_throw (beh : Nat → eventbus_event → Option String)
    (l1 : List callback_listener) (c : callback_listener)
    (l2 : List callback_listener) (e : eventbus_event) (msg : String)
    (h1 : ∀ x ∈ l1, beh x.cb e = none) (hc : beh c.cb e = some msg) :
    run_handlers beh (l1 ++ c :: l2) e
      = (l1.map (fun x => (x, e)) ++ [(c, e)], some msg) := by
  induction l1 with
  | nil => simp [run_handlers, hc]
  | cons a l1 ih =>
      have ha := h1 a (by simp)
      simp [run_handlers, ha, ih (fun x hx => h1 x (by simp [hx]))]

/-- C6 counterexample: handlers with tokens 1 (throwing) and 2 registered on
`"x"`, an event dispatched on `"x"`: the exception is not caught — it
escapes the dispatch loop (`some "boom"`) and handler 2 is never invoked —
while with non-throwing handlers both are invoked. -/
theorem C6_handler_exception_escapes :
    (dispatch_event beh_throws1
        (((bus0.register_listener "x" 1).2.register_listener "x" 2).2)
        ⟨0, "x", 7⟩
      = ([(⟨1, ["x"], 1⟩, ⟨0, "x", 7⟩)], some "boom")) ∧
    ((dispatch_event beh_total
        (((bus0.register_listener "x" 1).2.register_listener "x" 2).2)
        ⟨0, "x", 7⟩).1.length = 2) :=
  ⟨rfl, rfl⟩

/-- C6 (amended): when a handler throws while the dispatcher is delivering
an event, the exception is NOT caught inside the bus: `cbl->cb(e)` is called
bare, so the handlers after the throwing one in that delivery are not
invoked — the `"*"` vector is not even reached when a channel handler throws
— and the exception propagates out of `event_queue_dispatcher` instead of
the dispatcher going on to the next queued event. -/
theorem C6_exception_propagates (beh : Nat → eventbus_event → Option String)
    (bus : event_bus) (e : eventbus_event) (l1 : List callback_listener)
    (c : callback_listener) (l2 : List callback_listener) (msg : String)
    (htab : table_find bus.callback_table e.get_event_chan = l1 ++ c :: l2)
    (h1 : ∀ x ∈ l1, beh x.cb e = none) (hc : beh c.cb e = some msg) :
    dispatch_event beh bus e
      = (l1.map (fun x => (x, e)) ++ [(c, e)], some msg) := by
  simp [dispatch_event, htab, run_handlers_throw beh l1 c l2 e msg h1 hc]

/-- C6 witness: the amended propagation at the concrete throwing bus. -/
theorem C6_exception_propagates_witness :
    dispatch_event beh_throws1
        (((bus0.register_listener "x" 1).2.register_listener "x" 2).2)
        ⟨0, "x", 7⟩
      = (([] : List callback_listener).map
            (fun x => (x, (⟨0, "x", 7⟩ : eventbus_event)))
          ++ [(⟨1, ["x"], 1⟩, ⟨0, "x", 7⟩)], some "boom") :=
  C6_exception_propagates beh_throws1
    (((bus0.register_listener "x" 1).2.register_listener "x" 2).2)
    ⟨0, "x", 7⟩ [] ⟨1, ["x"], 1⟩ [⟨2, ["x"], 2⟩] "boom"
    (by decide) (by decide) rfl

/-- C10: registering with an empty channel list hands out the next
monotonically increasing id, records the subscription in the id index,
leaves the channel table untouched — so the handler is never invoked for
any dispatched event — and the id is removable via `remove_listener`. -/
theorem C10_register_empty_channels (bus : event_bus) (cb : Nat)
    (hwf : wf bus) :
    ((bus.register_listener_list [] cb).1 = bus.next_cbl_id) ∧
    ((bus.register_listener_list [] cb).2.next_cbl_id
      = bus.next_cbl_id + 1) ∧
    ((bus.register_listener_list [] cb).2.callback_table
      = bus.callback_table) ∧
    (idtable_find (bus.register_listener_list [] cb).2.callback_id_table
        bus.next_cbl_id
      = some ⟨bus.next_cbl_id, [], cb⟩) ∧
    (∀ e, count_invocations
        (dispatch_event beh_total (bus.register_listener_list [] cb).2 e).1
        bus.next_cbl_id = 0) ∧
    (idtable_find
        ((bus.register_listener_list [] cb).2.remove_listener
          bus.next_cbl_id).callback_id_table bus.next_cbl_id
      = none) := by
  have hfresh : ∀ q ∈ bus.callback_id_table, q.1 ≠ bus.next_cbl_id :=
    fun q hq => Nat.ne_of_lt (hwf.2 q hq)
  have hzero : ∀ c : String,
      ((table_find bus.callback_table c).filter
        (fun x => x.id = bus.next_cbl_id)).length = 0 := by
    intro c
    apply filter_id_nil_of_ne
    intro x hx
    obtain ⟨p, hp, hxp⟩ := mem_table_find hx
    exact Nat.ne_of_lt (hwf.1 p hp x hxp)
  refine ⟨rfl, rfl, rfl, idtable_find_set_self _ _ _, ?_, ?_⟩
  · intro e
    rw [dispatch_total]
    simp only [event_bus.register_listener_list, List.foldl_nil]
    rw [count_invocations_map, List.filter_append, List.length_append,
      hzero, hzero]
  · simp only [event_bus.remove_listener, event_bus.register_listener_list,
      List.foldl_nil, idtable_find_set_self]
    rw [idtable_set_fresh _ _ _ hfresh, idtable_erase_append _ _ _ hfresh]
    exact idtable_find_none _ _ hfresh

/-- C10 witness: the empty-channel registration at a concrete bus. -/
theorem C10_register_empty_channels_witness :
    (bus0.register_listener_list [] 42).1 = bus0.next_cbl_id ∧
    count_invocations
        (dispatch_event beh_total (bus0.register_listener_list [] 42).2
          ⟨0, "x", 7⟩).1 bus0.next_cbl_id = 0 ∧
    idtable_find
        ((bus0.register_listener_list [] 42).2.remove_listener
          bus0.next_cbl_id).callback_id_table bus0.next_cbl_id = none :=
  ⟨(C10_register_empty_channels bus0 42 wf_bus0).1,
   (C10_register_empty_channels bus0 42 wf_bus0).2.2.2.2.1 ⟨0, "x", 7⟩,
   (C10_register_empty_channels bus0 42 wf_bus0).2.2.2.2.2⟩

/-!
Helper lemmas for the probe coordinator.
-/

theorem probe_step_resolved (p : DST_DataSourceProbe) (ev : probe_event)
    (h : p.cancelled = true) : probe_step p ev = p := by
  cases ev with
  | probe_reply t s => simp [probe_step, DST_DataSourceProbe.complete_probe, h]
  | timer_expire => simp [probe_step, DST_DataSourceProbe.cancel, h]
  | cancel_request => simp [probe_step, DST_DataSourceProbe.cancel, h]

theorem probe_run_resolved (p : DST_DataSourceProbe) (evs : List probe_event)
    (h : p.cancelled = true) : probe_run p evs = p := by
  induction evs with
  | nil => rfl
  | cons ev rest ih =>
      have hstep : probe_run p (ev :: rest) = probe_run (probe_step p ev) rest := rfl
      rw [hstep, probe_step_resolved p ev h, ih]

theorem probe_step_timer_resolves (p : DST_DataSourceProbe) :
    (probe_step p .timer_expire).cancelled = true := by
  by_cases h : p.cancelled <;>
    simp [probe_step, DST_DataSourceProbe.cancel, h]

theorem probe_run_inv (p : DST_DataSourceProbe) (evs : List probe_event)
    (h : p.completions.length = (if p.cancelled then 1 else 0)) :
    (probe_run p evs).completions.length
      = (if (probe_run p evs).cancelled then 1 else 0) := by
  induction evs generalizing p with
  | nil => exact h
  | cons ev rest ih =>
      have hstep : (probe_step p ev).completions.length
          = (if (probe_step p ev).cancelled then 1 else 0) := by
        cases ev with
        | probe_reply t s =>
            by_cases ht : t ∈ p.probe_vec
            · by_cases hc : p.cancelled
              · simpa [probe_step, ht,
                  DST_DataSourceProbe.complete_probe, hc] using h
              · simp [hc] at h
                by_cases hs : s
                · simp [probe_step, ht,
                    DST_DataSourceProbe.complete_probe, hc, hs, h]
                · by_cases he : (p.probe_vec.erase t).isEmpty <;>
                    simp [probe_step, ht,
                      DST_DataSourceProbe.complete_probe, hc, hs, he, h]
            · simpa [probe_step, ht] using h
        | timer_expire =>
            by_cases hc : p.cancelled <;>
              simp [probe_step, DST_DataSourceProbe.cancel, hc, h]
        | cancel_request =>
            by_cases hc : p.cancelled <;>
              simp [probe_step, DST_DataSourceProbe.cancel, hc, h]
      exact ih (probe_step p ev) hstep

/-- C7: across every interleaving of probe replies, external cancellations
and the deadline timer, the coordinator invokes its completion callback at
most once — exactly once as soon as the deadline timer is in the stimulus
sequence (the timer always fires unless the coordinator resolved first, and
resolving also completes) — and `complete_probe` on an already-resolved
coordinator is dropped: it changes nothing. -/
theorem C7_completion_exactly_once :
    (∀ (pv : List Nat) (evs : List probe_event),
        (probe_run (probe_init pv) evs).completions.length ≤ 1) ∧
    (∀ (pv : List Nat) (evs : List probe_event),
        probe_event.timer_expire ∈ evs →
          (probe_run (probe_init pv) evs).completions.length = 1) ∧
    (∀ (p : DST_DataSourceProbe) (s : Bool) (t : Nat),
        p.cancelled = true → p.complete_probe s t = p) := by
  have hinit : ∀ pv : List Nat,
      (probe_init pv).completions.length
        = (if (probe_init pv).cancelled then 1 else 0) := fun _ => rfl
  refine ⟨?_, ?_, ?_⟩
  · intro pv evs
    have h := probe_run_inv (probe_init pv) evs (hinit pv)
    rw [h]
    split <;> simp
  · intro pv evs hmem
    obtain ⟨l1, l2, rfl⟩ := List.append_of_mem hmem
    have h1 : probe_run (probe_init pv) (l1 ++ probe_event.timer_expire :: l2)
        = probe_run
            (probe_step (probe_run (probe_init pv) l1) probe_event.timer_expire)
            l2 := by
      simp [probe_run, List.foldl_append]
    have hres := probe_step_timer_resolves (probe_run (probe_init pv) l1)
    have hinv := probe_run_inv (probe_init pv)
      (l1 ++ probe_event.timer_expire :: l2) (hinit pv)
    rw [h1, probe_run_resolved _ _ hres] at hinv ⊢
    simpa [hres] using hinv
  · intro p s t h
    simp [DST_DataSourceProbe.complete_probe, h]

/-- C7 witness: one pending attempt that rejects, then the timer: completion
invoked exactly once. -/
theorem C7_completion_exactly_once_witness :
    (probe_run (probe_init [5])
        [probe_event.probe_reply 5 false, probe_event.timer_expire]).completions.length
      = 1 :=
  C7_completion_exactly_once.2.1 [5]
    [probe_event.probe_reply 5 false, probe_event.timer_expire] (by decide)

/-- C8: when a driver is determined and the source is instantiated but the
open fails, the source is still assigned the next runtime id and appended to
the active source set (not dropped), it sits in the `error` state with its
runtime id in the error vector, the completion callback is invoked with the
failure, and the periodic retry pass re-attempts it with its stored
definition. -/
theorem C8_failed_open_stays_active (dst : Datasourcetracker)
    (in_source : String) (in_proto : Nat) (msg : String) :
    ((dst.open_datasource in_source in_proto (.error msg)).datasource_vec
      = dst.datasource_vec
        ++ [⟨dst.next_source_id, in_proto, in_source, .error, msg⟩]) ∧
    ((dst.open_datasource in_source in_proto (.error msg)).next_source_id
      = dst.next_source_id + 1) ∧
    (dst.next_source_id
      ∈ (dst.open_datasource in_source in_proto (.error msg)).error_vec) ∧
    ((dst.open_datasource in_source in_proto (.error msg)).completions
      = dst.completions ++ [(false, msg)]) ∧
    ((dst.next_source_id, in_source)
      ∈ (dst.open_datasource in_source in_proto (.error msg)).timetracker_event) := by
  refine ⟨rfl, rfl, ?_, rfl, ?_⟩
  · simp [Datasourcetracker.open_datasource]
  · refine List.mem_filterMap.mpr
      ⟨⟨dst.next_source_id, in_proto, in_source, .error, msg⟩, ?_, ?_⟩
    · simp [Datasourcetracker.open_datasource]
    · simp [Datasourcetracker.open_datasource, Datasourcetracker.timetracker_event]

/-!
Helper lemmas for the frame codec.
-/

theorem parseU16_u16be (n : Nat) (rest : List Nat) (h : n < 65536) :
    parseU16 (u16be n ++ rest) = some (n, rest) := by
  simp only [u16be, List.cons_append, List.nil_append, parseU16,
    Option.some.injEq, Prod.mk.injEq]
  exact ⟨by omega, trivial⟩

theorem parseU32_u32be (n : Nat) (rest : List Nat) (h : n < 4294967296) :
    parseU32 (u32be n ++ rest) = some (n, rest) := by
  simp only [u32be, List.cons_append, List.nil_append, parseU32,
    Option.some.injEq, Prod.mk.injEq]
  exact ⟨by omega, trivial⟩

theorem parseU32_u32be_nil (n : Nat) (h : n < 4294967296) :
    parseU32 (u32be n) = some (n, []) := by
  have := parseU32_u32be n [] h
  simpa using this

theorem parseBytes_append (xs rest : List Nat) :
    parseBytes xs.length (xs ++ rest) = some (xs, rest) := by
  simp [parseBytes, List.take_left, List.drop_left, List.length_append,
    Nat.le_add_right]

theorem cap_crc32_lt (l : List Nat) : cap_crc32 l < 4294967296 := by
  have h : ∀ (l : List Nat) (acc : Nat), acc < 4294967296 →
      l.foldl (fun acc b => (acc * 257 + b) % 4294967296) acc < 4294967296 := by
    intro l
    induction l with
    | nil => intro acc hacc; simpa using hacc
    | cons b rest ih =>
        intro acc _
        exact ih _ (Nat.mod_lt _ (by decide))
  exact h l 0 (by decide)

theorem parse_cap_kv_emit (kv : CapKeyedObject) (rest : List Nat)
    (hk : kv.key.length < 65536) (hs : kv.size < 4294967296)
    (ho : kv.size = kv.object.length) :
    parse_cap_kv (emit_cap_kv kv ++ rest) = some (kv, rest) := by
  have hb : parseBytes kv.size (kv.object ++ rest) = some (kv.object, rest) := by
    rw [ho]; exact parseBytes_append _ _
  simp [parse_cap_kv, emit_cap_kv, List.append_assoc,
    parseU16_u16be _ _ hk, parseU32_u32be _ _ hs, parseBytes_append, hb]

theorem cap_payload_cons (kv : CapKeyedObject) (kvs : List CapKeyedObject) :
    cap_payload (kv :: kvs) = emit_cap_kv kv ++ cap_payload kvs := rfl

theorem parse_cap_kvs_emit (kvs : List CapKeyedObject) (rest : List Nat)
    (h : ∀ kv ∈ kvs, kv.key.length < 65536 ∧ kv.size < 4294967296 ∧
      kv.size = kv.object.length) :
    parse_cap_kvs kvs.length (cap_payload kvs ++ rest) = some (kvs, rest) := by
  induction kvs generalizing rest with
  | nil => simp [cap_payload, parse_cap_kvs]
  | cons kv kvs ih =>
      obtain ⟨h1, h2, h3⟩ := h kv (by simp)
      rw [cap_payload_cons, List.append_assoc]
      show parse_cap_kvs (kvs.length + 1) _ = _
      simp only [parse_cap_kvs, parse_cap_kv_emit kv _ h1 h2 h3,
        ih rest (fun k hk => h k (List.mem_cons_of_mem _ hk))]

/-- C9: serializing a frame — a type and an ordered list of keyed objects —
with `emit_frame` and parsing the bytes back yields exactly the original
type and keyed objects (key, size and payload bytes preserved), with the
stream fully consumed, whenever the fields fit the wire format: type length
and key lengths below 2^16, object count, object sizes and payload length
below 2^32, and each object's size equal to its payload byte count. -/
theorem C9_frame_round_trip (t : List Nat) (kvs : List CapKeyedObject)
    (ht : t.length < 65536) (hn : kvs.length < 4294967296)
    (hp : (cap_payload kvs).length < 4294967296)
    (hkv : ∀ kv ∈ kvs, kv.key.length < 65536 ∧ kv.size < 4294967296 ∧
      kv.size = kv.object.length) :
    parse_frame (emit_frame t kvs) = some ((t, kvs), []) := by
  have hkvs : parse_cap_kvs kvs.length (cap_payload kvs) = some (kvs, []) := by
    have := parse_cap_kvs_emit kvs [] hkv
    simpa using this
  have hmagic : MAGIC < 4294967296 := by decide
  have hcrc := cap_crc32_lt
    (crc_region t kvs.length (cap_payload kvs).length (cap_payload kvs))
  simp [emit_frame, parse_frame, List.append_assoc,
    parseU32_u32be _ _ hmagic, parseU16_u16be _ _ ht,
    parseU32_u32be _ _ hn, parseU32_u32be _ _ hp,
    parseBytes_append, parseU32_u32be_nil _ hcrc, hkvs]

/-- C9 witness: a concrete frame with two keyed objects round-trips. -/
theorem C9_frame_round_trip_witness :
    parse_frame (emit_frame [80, 82]
        [⟨[107], 1, [255]⟩, ⟨[], 0, []⟩])
      = some (([80, 82], [⟨[107], 1, [255]⟩, ⟨[], 0, []⟩]), []) :=
  C9_frame_round_trip [80, 82] [⟨[107], 1, [255]⟩, ⟨[], 0, []⟩]
    (by decide) (by decide) (by decide) (by decide)

end Kismet
